import Mathlib

/-!
Verification development for the collaborative sketch app
(src/components/SketchCanvas.tsx).  The data model, the local mutation
operations (add / move / clear), the drag-gesture lifecycle, the promise
handling around backing-store transactions and the renderer's per-kind
size defaults are embedded from the source; the Mutation Queue and the
Sync Engine's last-writer-wins reconciliation, which the client delegates
to the backing-store SDK and which therefore have no code under src/, are
modelled from the specification where indicated.
-/

/-- The closed set of shape variants, from the `SketchElement` interface:
`type: "rectangle" | "circle" | "triangle"`. -/
inductive ShapeType
  | rectangle
  | circle
  | triangle
deriving DecidableEq, Repr

/-- One canvas element, from the `SketchElement` interface plus the
`createdAt` field written by `addElement`.  `width`/`height` are optional
in the interface (`width?: number`). -/
structure SketchElement where
  id : String
  type : ShapeType
  x : ℚ
  y : ℚ
  color : String
  width : Option ℚ
  height : Option ℚ
  createdAt : ℕ
deriving DecidableEq, Repr

/-- A local mutation intent: create (the `update` call of `addElement`),
move (the `update({ x, y })` call of `moveElement`), or delete
(the `delete()` call issued by `clearCanvas`). -/
inductive Mutation
  | create (el : SketchElement)
  | move (elemId : String) (x y : ℚ)
  | delete (elemId : String)
deriving DecidableEq, Repr

/-- The client's view of the element set (`data.elements`), an
insertion-ordered list of elements. -/
abbrev Store := List SketchElement

/-- Effect of `update({ x, y })` on one element record: the backing
store merges the given fields, so only `x` and `y` are replaced. -/
def applyMove (e : SketchElement) (x y : ℚ) : SketchElement :=
  { e with x := x, y := y }

/-- Effect of one mutation on the element set: `update` on a fresh id
inserts, `update` on a present id replaces, `update({ x, y })` merges
the position into the matching element, `delete()` removes by id. -/
def applyMutation (s : Store) : Mutation → Store
  | Mutation.create el =>
      if s.any (fun e => e.id == el.id) then
        s.map (fun e => if e.id == el.id then el else e)
      else s ++ [el]
  | Mutation.move i x y =>
      s.map (fun e => if e.id == i then applyMove e x y else e)
  | Mutation.delete i =>
      s.filter (fun e => e.id != i)

/-- The deletes issued by `clearCanvas`: when elements are present it
transacts `elementIds.map((elementId) => db.tx.elements[elementId].delete())`
over `elementIds = elements.map((el) => el.id)`; otherwise no transaction. -/
def clearCanvasMutations (elements : Store) : List Mutation :=
  if elements.length > 0 then
    (elements.map (fun el => el.id)).map (fun elementId => Mutation.delete elementId)
  else []

/-- The element record written by `addElement(x, y)`:
`width = selectedTool === "rectangle" ? 80 : 60`,
`height = selectedTool === "rectangle" ? 60 : 60`, and the `update` call
supplies type, x, y, color, width, height and createdAt. -/
def addElementRecord (selectedTool : ShapeType) (selectedColor : String)
    (x y : ℚ) (elementId : String) (now : ℕ) : SketchElement :=
  { id := elementId
    type := selectedTool
    x := x
    y := y
    color := selectedColor
    width := some (if selectedTool = ShapeType.rectangle then 80 else 60)
    height := some (if selectedTool = ShapeType.rectangle then 60 else 60)
    createdAt := now }

/-- Gesture-local animated state of one `MovableElement`: the shared
values `translateX`, `translateY`, `scale`. -/
structure GestureState where
  translateX : ℚ
  translateY : ℚ
  scale : ℚ
deriving DecidableEq, Repr

/-- `panGesture.onStart`: animates `scale` toward `1.1` and runs
`onSelect` (a selection state update, not a store mutation), so no
mutation is emitted. -/
def panOnStart (g : GestureState) : GestureState × List Mutation :=
  ({ g with scale := 11 / 10 }, [])

/-- `panGesture.onUpdate`: writes the event translation into the shared
values only; no `db.transact` call occurs here. -/
def panOnUpdate (g : GestureState) (tx ty : ℚ) : GestureState × List Mutation :=
  ({ g with translateX := tx, translateY := ty }, [])

/-- `panGesture.onEnd`: animates `scale` back to `1`, computes
`finalX = element.x + event.translationX` (same for y) and runs
`onMove(element.id, finalX, finalY)`, which is `moveElement` and issues
one `update({ x, y })` transaction. -/
def panOnEnd (e : SketchElement) (g : GestureState) (tx ty : ℚ) :
    GestureState × List Mutation :=
  ({ g with scale := 1 }, [Mutation.move e.id (e.x + tx) (e.y + ty)])

/-- Folds a stream of intermediate `onUpdate` events over the gesture
state, collecting every mutation they emit. -/
def runUpdates (g : GestureState) : List (ℚ × ℚ) → GestureState × List Mutation
  | [] => (g, [])
  | (tx, ty) :: rest =>
      let s₁ := panOnUpdate g tx ty
      let s₂ := runUpdates s₁.1 rest
      (s₂.1, s₁.2 ++ s₂.2)

/-- One whole drag gesture on element `e`: `onStart`, then a stream of
`onUpdate` events, then `onEnd` with the final translation; returns the
final gesture state and every mutation emitted along the way. -/
def runDrag (e : SketchElement) (g : GestureState) (updates : List (ℚ × ℚ))
    (endTx endTy : ℚ) : GestureState × List Mutation :=
  let s₁ := panOnStart g
  let s₂ := runUpdates s₁.1 updates
  let s₃ := panOnEnd e s₂.1 endTx endTy
  (s₃.1, s₁.2 ++ s₂.2 ++ s₃.2)

/-- Outcome of the backing store settling a `db.transact` promise. -/
inductive TxOutcome
  | success
  | failure
deriving DecidableEq, Repr

/-- The settled `db.transact` promise: resolves on success, rejects with
an error on failure. -/
def promiseSettle : TxOutcome → Except String Unit
  | TxOutcome.success => Except.ok ()
  | TxOutcome.failure => Except.error ("Transaction failed")

/-- The `.catch((error) => { console.error(...) })` handler attached in
`addElement` and `moveElement`: a rejection is consumed (logged) and the
chain continues normally. -/
def catchHandler : Except String Unit → Except String Unit
  | Except.ok _ => Except.ok ()
  | Except.error _ => Except.ok ()

/-- The component state of `SketchCanvas` relevant to mutations: the
selected tool, the selected color and the selected element id. -/
structure SessionState where
  selectedTool : ShapeType
  selectedColor : String
  selectedElementId : Option String
deriving DecidableEq, Repr

/-- `addElement(x, y)` with the transaction outcome made explicit:
builds the element record, issues the transaction whose settlement is
routed through the attached `.catch`, and sets `selectedElementId` to
the freshly generated id.  Returns the updated session state and the
issued mutation list. -/
def addElementHandler (st : SessionState) (x y : ℚ) (newId : String)
    (now : ℕ) (outcome : TxOutcome) :
    Except String (SessionState × List Mutation) := do
  let el := addElementRecord st.selectedTool st.selectedColor x y newId now
  let _ ← catchHandler (promiseSettle outcome)
  Except.ok ({ st with selectedElementId := some newId }, [Mutation.create el])

/-- `moveElement(elementId, x, y)` with the transaction outcome made
explicit: issues one `update({ x, y })` transaction whose settlement is
routed through the attached `.catch`. -/
def moveElementHandler (elementId : String) (x y : ℚ) (outcome : TxOutcome) :
    Except String (List Mutation) := do
  let _ ← catchHandler (promiseSettle outcome)
  Except.ok [Mutation.move elementId x y]

/-- `clearCanvas()` with the transaction outcome made explicit: issues
the bulk delete transaction and resets the selection.  The promise of
this transaction is neither awaited nor given a rejection handler, so
the synchronous call returns before it settles and the outcome never
enters this function's control flow. -/
def clearCanvasHandler (st : SessionState) (elements : Store)
    (_outcome : TxOutcome) : Except String (SessionState × List Mutation) :=
  Except.ok ({ st with selectedElementId := none }, clearCanvasMutations elements)

/-- Whether a settled operation returned normally (no exception). -/
def isOkB {α : Type} : Except String α → Bool
  | Except.ok _ => true
  | Except.error _ => false

/-- Observable events of one `addElement` call, in program order: the
transaction is issued, then `setSelectedElementId(elementId)` runs
synchronously, and only later does the (handled) promise settle. -/
inductive UiEvent
  | txIssued (ms : List Mutation)
  | selectionSet (sel : Option String)
  | txSettled (o : TxOutcome) (handled : Bool)
deriving DecidableEq, Repr

/-- The event trace of `addElement(x, y)`: `db.transact(...)` is
initiated, `setSelectedElementId(elementId)` follows in the same
synchronous body, and the promise settles afterwards (with a `.catch`
attached, hence handled). -/
def addElementTrace (st : SessionState) (x y : ℚ) (newId : String)
    (now : ℕ) (outcome : TxOutcome) : List UiEvent :=
  let el := addElementRecord st.selectedTool st.selectedColor x y newId now
  [UiEvent.txIssued [Mutation.create el],
   UiEvent.selectionSet (some newId),
   UiEvent.txSettled outcome true]

/-- JavaScript `v || d` on an optional numeric field: an absent field
gives the default, and so does a present value of `0`, which is falsy. -/
def jsOr (v : Option ℚ) (d : ℚ) : ℚ :=
  match v with
  | none => d
  | some w => if w = 0 then d else w

/-- Width the renderer draws for an element, from `renderElement`:
rectangle `element.width || 80`; circle `element.width || 60`; triangle
`borderLeftWidth + borderRightWidth = (element.width || 60) / 2` twice. -/
def renderedWidth (e : SketchElement) : ℚ :=
  match e.type with
  | ShapeType.rectangle => jsOr e.width 80
  | ShapeType.circle => jsOr e.width 60
  | ShapeType.triangle => jsOr e.width 60 / 2 + jsOr e.width 60 / 2

/-- Height the renderer draws for an element, from `renderElement`:
rectangle and circle `element.height || 60`; triangle
`borderBottomWidth = element.height || 60`. -/
def renderedHeight (e : SketchElement) : ℚ :=
  match e.type with
  | ShapeType.rectangle => jsOr e.height 60
  | ShapeType.circle => jsOr e.height 60
  | ShapeType.triangle => jsOr e.height 60


/-- Modelled from the spec: the Mutation Queue entry `{mutation, localSeq}`
(spec section 4.2).  The client delegates queueing to the backing-store SDK,
so this component has no code under src/. -/
structure QueuedMutation where
  mutation : Mutation
  localSeq : ℕ
deriving DecidableEq, Repr

/-- Modelled from the spec: the Mutation Queue, an ordered sequence of
pending entries together with the next local sequence number to assign
(spec section 4.2). -/
structure MutationQueue where
  entries : List QueuedMutation
  nextSeq : ℕ
deriving DecidableEq, Repr

/-- Modelled from the spec: `enqueue(mutation)` appends with a strictly
increasing local sequence number and returns the assigned number
(spec section 4.2). -/
def MutationQueue.enqueue (q : MutationQueue) (m : Mutation) :
    MutationQueue × ℕ :=
  ({ entries := q.entries ++ [{ mutation := m, localSeq := q.nextSeq }]
     nextSeq := q.nextSeq + 1 },
   q.nextSeq)

/-- A list of sequence numbers is in strictly increasing order. -/
def seqsSortedB : List ℕ → Bool
  | [] => true
  | [_] => true
  | a :: b :: rest => decide (a < b) && seqsSortedB (b :: rest)

/-- Queue well-formedness: entries are ordered by strictly increasing
sequence number, all below the next number to assign. -/
def QueueWF (q : MutationQueue) : Prop :=
  seqsSortedB (q.entries.map QueuedMutation.localSeq) = true
  ∧ ∀ s ∈ q.entries.map QueuedMutation.localSeq, s < q.nextSeq

/-- Modelled from the spec: a remote change notification for one element
id, carrying the authoritative element value and its logical write-time
(spec sections 4.3 and 6). -/
structure RemoteChange where
  elemId : String
  value : SketchElement
  writeTime : ℕ
deriving DecidableEq, Repr

/-- Modelled from the spec: one still-pending (unacknowledged) local
mutation as the Sync Engine sees it — its element id, its logical
write-time and its queue sequence number (spec sections 4.2 and 4.3). -/
structure PendingLocal where
  elemId : String
  writeTime : ℕ
  seq : ℕ
deriving DecidableEq, Repr

/-- The Local Optimistic Cache with the logical write-time of each
entry's last write, as needed by last-writer-wins merging. -/
abbrev TimedStore := List (SketchElement × ℕ)

/-- Modelled from the spec: the Sync Engine state — the optimistic
cache, the pending local mutations, and the remote changes buffered
behind newer pending local mutations (spec section 4.3). -/
structure SyncState where
  cache : TimedStore
  pending : List PendingLocal
  buffered : List RemoteChange
deriving DecidableEq, Repr

/-- Modelled from the spec: last-writer-wins merge of an element value
with write-time `t` into the cache — a fresh id is inserted, a present
id is overwritten exactly when the incoming write-time is not older
(spec section 4.3). -/
def lwwUpsert (cache : TimedStore) (el : SketchElement) (t : ℕ) : TimedStore :=
  if cache.any (fun e => e.1.id == el.id) then
    cache.map (fun e =>
      if e.1.id == el.id then (if e.2 ≤ t then (el, t) else e) else e)
  else cache ++ [(el, t)]

/-- Modelled from the spec: whether a still-pending local mutation for
the same element id has a logical write-time newer than the incoming
change's (spec section 4.3). -/
def hasNewerPending (st : SyncState) (c : RemoteChange) : Bool :=
  st.pending.any (fun p => p.elemId == c.elemId && decide (c.writeTime < p.writeTime))

/-- Modelled from the spec: handling one remote change notification —
buffered when a newer local mutation for the same id is still pending,
otherwise merged into the cache by last-writer-wins (spec section 4.3). -/
def applyRemoteChange (st : SyncState) (c : RemoteChange) : SyncState :=
  if hasNewerPending st c then { st with buffered := st.buffered ++ [c] }
  else { st with cache := lwwUpsert st.cache c.value c.writeTime }

/-- Modelled from the spec: dropping the pending entry with the given
sequence number once the backing store acknowledges it (spec section 4.2). -/
def removePending (st : SyncState) (s : ℕ) : SyncState :=
  { st with pending := st.pending.filter (fun p => p.seq != s) }

/-- Modelled from the spec: reapplying every buffered remote change
through the reconciliation rule; a change still blocked by another
pending mutation is buffered again (spec section 4.3). -/
def flushBuffered (st : SyncState) : SyncState :=
  List.foldl applyRemoteChange { st with buffered := [] } st.buffered

/-- Modelled from the spec: acknowledging a local mutation removes it
from the pending set and reapplies the buffered remote changes
(spec sections 4.2 and 4.3). -/
def acknowledge (st : SyncState) (s : ℕ) : SyncState :=
  flushBuffered (removePending st s)

/-- A palette color, from the `COLORS` constant. -/
def demoColor : String := "#007AFF"

/-- A sample client-generated element id. -/
def demoId : String := "e1"

/-- A second sample client-generated element id. -/
def demoId2 : String := "e2"

/-- An id that is not present in the sample store. -/
def ghostId : String := "ghost"

/-- A sample rectangle element as `addElement` would create it. -/
def demoElement (i : String) (x y : ℚ) : SketchElement :=
  { id := i
    type := ShapeType.rectangle
    x := x
    y := y
    color := demoColor
    width := some 80
    height := some 60
    createdAt := 0 }

/-- A sample two-element store. -/
def demoStore : Store := [demoElement demoId 50 50, demoElement demoId2 120 80]

/-- A rectangle whose stored width is the falsy number `0`. -/
def zeroWidthRect : SketchElement :=
  { demoElement demoId 0 0 with width := some 0, height := some 60 }

/-- A triangle with both optional size fields absent. -/
def bareTriangle : SketchElement :=
  { id := demoId
    type := ShapeType.triangle
    x := 0
    y := 0
    color := demoColor
    width := none
    height := none
    createdAt := 0 }

/-- The empty mutation queue. -/
def emptyQueue : MutationQueue := { entries := [], nextSeq := 0 }

/-- The pending local Move of the spec's conflict-resolution scenario:
element `e1` moved locally with logical write-time 2, still unacknowledged. -/
def syncScenarioPending : PendingLocal :=
  { elemId := demoId, writeTime := 2, seq := 0 }

/-- The Sync Engine state of the spec's conflict-resolution scenario:
the cache holds `e1` at `(10, 10)` written at time 2, with the local Move
still pending. -/
def syncScenarioState : SyncState :=
  { cache := [(demoElement demoId 10 10, 2)]
    pending := [syncScenarioPending]
    buffered := [] }

/-- The incoming remote Move of the spec's conflict-resolution scenario:
`e1` to `(5, 5)` with the older logical write-time 1. -/
def syncScenarioChange : RemoteChange :=
  { elemId := demoId, value := demoElement demoId 5 5, writeTime := 1 }

/-- Intermediate `onUpdate` events emit no mutation, over any stream. -/
theorem runUpdates_emits_nothing :
    ∀ (updates : List (ℚ × ℚ)) (g : GestureState),
      (runUpdates g updates).2 = [] := by
  intro updates
  induction updates with
  | nil => intro g; rfl
  | cons u rest ih =>
      intro g
      cases u with
      | mk tx ty => simp [runUpdates, panOnUpdate, ih]

/-- Claim C2: during a drag gesture, intermediate position updates never
each cause a network write — an `onUpdate` event emits no mutation — and
the whole gesture emits exactly one durable Move mutation, carried by the
end-of-gesture event with the final position. -/
theorem drag_coalesces_to_single_move (e : SketchElement) (g : GestureState)
    (updates : List (ℚ × ℚ)) (endTx endTy : ℚ) :
    (∀ (gu : GestureState) (tx ty : ℚ), (panOnUpdate gu tx ty).2 = [])
    ∧ (runDrag e g updates endTx endTy).2
        = [Mutation.move e.id (e.x + endTx) (e.y + endTy)] := by
  constructor
  · intro gu tx ty; rfl
  · simp [runDrag, panOnStart, panOnEnd, runUpdates_emits_nothing]

/-- Claim C3: the bulk clear issues exactly one Delete mutation per
element id known at the moment of the clear — the mutation list is the
id-wise image of the current element list, its length is the element
count, and a Delete for an id appears exactly as often as that id occurs
among the known elements (so never for an id not in that set). -/
theorem clearCanvas_deletes_exactly_known_ids (els : Store) :
    clearCanvasMutations els = els.map (fun e => Mutation.delete e.id)
    ∧ (clearCanvasMutations els).length = els.length
    ∧ ∀ i : String,
        (clearCanvasMutations els).count (Mutation.delete i)
          = (els.map SketchElement.id).count i := by
  have hmap : clearCanvasMutations els = els.map (fun e => Mutation.delete e.id) := by
    cases els with
    | nil => rfl
    | cons a t => simp [clearCanvasMutations]
  refine ⟨hmap, ?_, ?_⟩
  · rw [hmap, List.length_map]
  · intro i
    have hinj : Function.Injective Mutation.delete := by
      intro a b hab
      cases hab
      rfl
    rw [hmap, show els.map (fun e => Mutation.delete e.id)
          = (els.map SketchElement.id).map Mutation.delete by
        rw [List.map_map]; rfl]
    exact List.count_map_of_injective (els.map SketchElement.id) Mutation.delete hinj i

/-- Claim C4: deletion is idempotent — deleting the same id twice yields
the same store as deleting it once — and deleting an id no live element
carries leaves the store unchanged (a no-op, not an error). -/
theorem delete_idempotent_and_noop (s : Store) (i : String) :
    applyMutation (applyMutation s (Mutation.delete i)) (Mutation.delete i)
      = applyMutation s (Mutation.delete i)
    ∧ ((∀ e ∈ s, e.id ≠ i) → applyMutation s (Mutation.delete i) = s) := by
  constructor
  · simp [applyMutation, List.filter_filter]
  · intro h
    simp only [applyMutation, List.filter_eq_self]
    intro e he
    simpa using h e he

/-- Witness for C4 at a concrete store: deleting an id not present in
the two-element sample store twice equals deleting it once, and is a
no-op. -/
theorem delete_idempotent_and_noop_witness :
    applyMutation (applyMutation demoStore (Mutation.delete ghostId))
        (Mutation.delete ghostId)
      = applyMutation demoStore (Mutation.delete ghostId)
    ∧ applyMutation demoStore (Mutation.delete ghostId) = demoStore :=
  ⟨(delete_idempotent_and_noop demoStore ghostId).1,
   (delete_idempotent_and_noop demoStore ghostId).2 (by decide)⟩

/-- Claim C5: for every tap, `addElement` creates exactly one element
whose kind is the selected tool, whose position is the tap coordinates,
whose color is the selected color, and in which both optional size
fields are populated, so no partial state reaches the renderer. -/
theorem addElement_creates_one_fully_specified (st : SessionState)
    (x y : ℚ) (newId : String) (now : ℕ) (o : TxOutcome) :
    ∃ st' ms, addElementHandler st x y newId now o = Except.ok (st', ms)
      ∧ ms.length = 1
      ∧ ∃ el, ms = [Mutation.create el]
        ∧ el.type = st.selectedTool
        ∧ el.x = x ∧ el.y = y
        ∧ el.color = st.selectedColor
        ∧ el.width.isSome = true
        ∧ el.height.isSome = true := by
  refine ⟨{ st with selectedElementId := some newId },
    [Mutation.create (addElementRecord st.selectedTool st.selectedColor x y newId now)],
    ?_, rfl, addElementRecord st.selectedTool st.selectedColor x y newId now,
    rfl, rfl, rfl, rfl, rfl, rfl, rfl⟩
  cases o <;> rfl

/-- Claim C6: for every transmission outcome including failure, none of
the three mutation operations raises an exception — `addElement`,
`moveElement` and `clearCanvas` all return normally, so the client keeps
accepting local mutations. -/
theorem mutation_operations_return_normally (st : SessionState)
    (x y : ℚ) (newId : String) (now : ℕ) (elementId : String)
    (mx my : ℚ) (els : Store) (o : TxOutcome) :
    isOkB (addElementHandler st x y newId now o) = true
    ∧ isOkB (moveElementHandler elementId mx my o) = true
    ∧ isOkB (clearCanvasHandler st els o) = true := by
  cases o <;> exact ⟨rfl, rfl, rfl⟩

/-- Claim C8: a move rewrites exactly the position — the moved element's
`x` and `y` become the given coordinates while its id, kind, color,
width, height and creation time are untouched, and any store element
with a different id passes through the move unchanged. -/
theorem move_updates_only_position (e : SketchElement) (x y : ℚ) :
    (applyMove e x y).x = x
    ∧ (applyMove e x y).y = y
    ∧ (applyMove e x y).id = e.id
    ∧ (applyMove e x y).type = e.type
    ∧ (applyMove e x y).color = e.color
    ∧ (applyMove e x y).width = e.width
    ∧ (applyMove e x y).height = e.height
    ∧ (applyMove e x y).createdAt = e.createdAt
    ∧ ∀ (s : Store) (i : String) (a : SketchElement), a ∈ s → a.id ≠ i →
        a ∈ applyMutation s (Mutation.move i x y) := by
  refine ⟨rfl, rfl, rfl, rfl, rfl, rfl, rfl, rfl, ?_⟩
  intro s i a ha hne
  have hbe : (a.id == i) = false := by simp [hne]
  simp only [applyMutation, List.mem_map]
  exact ⟨a, ha, by simp [hbe]⟩

/-- Witness for C8's store conjunct at a concrete input: the second
sample element survives a move of the first unchanged. -/
theorem move_updates_only_position_witness :
    demoElement demoId2 120 80 ∈
      applyMutation demoStore (Mutation.move demoId 70 90) :=
  (move_updates_only_position (demoElement demoId 50 50) 70 90).2.2.2.2.2.2.2.2
    demoStore demoId (demoElement demoId2 120 80) (by decide) (by decide)

/-- Counterexample to claim C9 as stated: a rectangle with both size
fields present but stored width `0` is not rendered with its stored
value — JavaScript's `element.width || 80` treats the present value `0`
as falsy and substitutes the default `80`. -/
theorem renderer_stored_zero_counterexample :
    zeroWidthRect.width = some 0
    ∧ zeroWidthRect.height = some 60
    ∧ renderedWidth zeroWidthRect = 80
    ∧ ¬ renderedWidth zeroWidthRect = 0 := by
  refine ⟨rfl, rfl, by decide, by decide⟩

/-- Claim C9 (amended): when an element's width or height is absent — or
present but equal to the falsy number `0` — the renderer substitutes the
per-kind default (width 80 for a rectangle, 60 for circle and triangle;
height 60 for every kind); a present nonzero stored width or height is
rendered as stored. -/
theorem renderer_per_kind_defaults (e : SketchElement) :
    ((e.width = none ∨ e.width = some 0) →
        renderedWidth e = if e.type = ShapeType.rectangle then 80 else 60)
    ∧ ((e.height = none ∨ e.height = some 0) → renderedHeight e = 60)
    ∧ (∀ w : ℚ, e.width = some w → ¬ w = 0 → renderedWidth e = w)
    ∧ (∀ h : ℚ, e.height = some h → ¬ h = 0 → renderedHeight e = h) := by
  refine ⟨?_, ?_, ?_, ?_⟩
  · intro hw
    rcases hw with hw | hw <;>
      cases ht : e.type <;> simp [renderedWidth, jsOr, hw, ht]
  · intro hh
    rcases hh with hh | hh <;>
      cases ht : e.type <;> simp [renderedHeight, jsOr, hh, ht]
  · intro w hw hwz
    cases ht : e.type <;> simp [renderedWidth, jsOr, hw, hwz, ht]
  · intro h hh hhz
    cases ht : e.type <;> simp [renderedHeight, jsOr, hh, hhz, ht]

/-- Witness for the amended C9 at concrete inputs: the sizeless triangle
gets the 60 by 60 default, and an element whose stored width is the
nonzero 80 renders at 80. -/
theorem renderer_per_kind_defaults_witness :
    renderedWidth bareTriangle = 60
    ∧ renderedHeight bareTriangle = 60
    ∧ renderedWidth (demoElement demoId 50 50) = 80 := by
  refine ⟨?_, ?_, ?_⟩
  · have h := (renderer_per_kind_defaults bareTriangle).1 (Or.inl rfl)
    simpa [bareTriangle] using h
  · exact (renderer_per_kind_defaults bareTriangle).2.1 (Or.inl rfl)
  · exact (renderer_per_kind_defaults (demoElement demoId 50 50)).2.2.1 80 rfl
      (by norm_num)

/-- Claim C10: `addElement` sets the selected element id to the freshly
generated id for every transaction outcome, and in its event trace the
selection update happens strictly before the transaction settles. -/
theorem addElement_selects_new_id_before_settle (st : SessionState)
    (x y : ℚ) (newId : String) (now : ℕ) (o : TxOutcome) :
    (∃ st' ms, addElementHandler st x y newId now o = Except.ok (st', ms)
        ∧ st'.selectedElementId = some newId)
    ∧ ∃ i j : ℕ, i < j
        ∧ (addElementTrace st x y newId now o)[i]?
            = some (UiEvent.selectionSet (some newId))
        ∧ (addElementTrace st x y newId now o)[j]?
            = some (UiEvent.txSettled o true) := by
  constructor
  · refine ⟨{ st with selectedElementId := some newId },
      [Mutation.create (addElementRecord st.selectedTool st.selectedColor x y newId now)],
      ?_, rfl⟩
    cases o <;> rfl
  · exact ⟨1, 2, by norm_num, rfl, rfl⟩

/-- Appending a sequence number above every element of a strictly
increasing list keeps it strictly increasing. -/
theorem seqsSortedB_append :
    ∀ (l : List ℕ) (n : ℕ), seqsSortedB l = true → (∀ s ∈ l, s < n) →
      seqsSortedB (l ++ [n]) = true := by
  intro l
  induction l with
  | nil => intro n _ _; rfl
  | cons a t ih =>
      intro n hs hb
      cases t with
      | nil =>
          have han : a < n := hb a (by simp)
          simp [seqsSortedB, han]
      | cons b r =>
          have hs' : (decide (a < b) && seqsSortedB (b :: r)) = true := hs
          rw [Bool.and_eq_true] at hs'
          have h2 := ih n hs'.2 (fun s hm => hb s (List.mem_cons_of_mem a hm))
          have hgoal : (decide (a < b) && seqsSortedB ((b :: r) ++ [n])) = true := by
            rw [Bool.and_eq_true]
            exact ⟨hs'.1, h2⟩
          exact hgoal

/-- One `enqueue` preserves queue well-formedness, appends its entry at
the tail with the returned sequence number, and returns `nextSeq`. -/
theorem enqueue_wf (q : MutationQueue) (m : Mutation) (hw : QueueWF q) :
    QueueWF (q.enqueue m).1
    ∧ (q.enqueue m).2 = q.nextSeq
    ∧ (q.enqueue m).1.entries.getLast?
        = some { mutation := m, localSeq := (q.enqueue m).2 } := by
  refine ⟨⟨?_, ?_⟩, rfl, ?_⟩
  · have hmap : ((q.enqueue m).1.entries).map QueuedMutation.localSeq
        = (q.entries.map QueuedMutation.localSeq) ++ [q.nextSeq] := by
      simp [MutationQueue.enqueue]
    rw [hmap]
    exact seqsSortedB_append (q.entries.map QueuedMutation.localSeq) q.nextSeq
      hw.1 hw.2
  · intro s hs
    simp only [MutationQueue.enqueue, List.map_append, List.map_cons,
      List.map_nil, List.mem_append, List.mem_singleton] at hs ⊢
    rcases hs with hs | hs
    · exact Nat.lt_succ_of_lt (hw.2 s hs)
    · rw [hs]
      exact Nat.lt_succ_self q.nextSeq
  · exact List.getLast?_concat q.entries

/-- Claim C7: `enqueue` appends its entry carrying the returned sequence
number, two successive enqueues return strictly increasing numbers, and
a well-formed queue stays ordered by strictly increasing sequence
numbers through both enqueues. -/
theorem enqueue_seq_strictly_increasing (q : MutationQueue)
    (m₁ m₂ : Mutation) (hw : QueueWF q) :
    (q.enqueue m₁).2 < ((q.enqueue m₁).1.enqueue m₂).2
    ∧ (q.enqueue m₁).1.entries.getLast?
        = some { mutation := m₁, localSeq := (q.enqueue m₁).2 }
    ∧ ((q.enqueue m₁).1.enqueue m₂).1.entries.getLast?
        = some { mutation := m₂, localSeq := ((q.enqueue m₁).1.enqueue m₂).2 }
    ∧ QueueWF (q.enqueue m₁).1
    ∧ QueueWF ((q.enqueue m₁).1.enqueue m₂).1 := by
  have h1 := enqueue_wf q m₁ hw
  have h2 := enqueue_wf (q.enqueue m₁).1 m₂ h1.1
  refine ⟨?_, h1.2.2, h2.2.2, h1.1, h2.1⟩
  show q.nextSeq < q.nextSeq + 1
  exact Nat.lt_succ_self q.nextSeq

/-- Witness for C7 at the empty queue: enqueuing two concrete mutations
returns sequence numbers 0 then 1 and leaves a well-formed queue. -/
theorem enqueue_seq_strictly_increasing_witness :
    (emptyQueue.enqueue (Mutation.delete demoId)).2
        < ((emptyQueue.enqueue (Mutation.delete demoId)).1.enqueue
            (Mutation.delete demoId2)).2
    ∧ QueueWF ((emptyQueue.enqueue (Mutation.delete demoId)).1.enqueue
        (Mutation.delete demoId2)).1 :=
  ⟨(enqueue_seq_strictly_increasing emptyQueue (Mutation.delete demoId)
      (Mutation.delete demoId2) ⟨rfl, by simp [emptyQueue]⟩).1,
   (enqueue_seq_strictly_increasing emptyQueue (Mutation.delete demoId)
      (Mutation.delete demoId2) ⟨rfl, by simp [emptyQueue]⟩).2.2.2.2⟩

/-- Last-writer-wins keeps the cache unchanged when the element id is
present and every cached entry for it carries a strictly newer
write-time than the incoming one. -/
theorem lwwUpsert_keep (cache : TimedStore) (el : SketchElement) (t : ℕ)
    (hmem : ∃ e ∈ cache, e.1.id = el.id)
    (hnew : ∀ e ∈ cache, e.1.id = el.id → t < e.2) :
    lwwUpsert cache el t = cache := by
  have hany : cache.any (fun e => e.1.id == el.id) = true := by
    rcases hmem with ⟨e, he, hid⟩
    exact List.any_eq_true.mpr ⟨e, he, by simpa using hid⟩
  have hfix : ∀ e ∈ cache,
      (if e.1.id == el.id then (if e.2 ≤ t then (el, t) else e) else e) = e := by
    intro e he
    by_cases hid : e.1.id = el.id
    · have hnle : ¬ e.2 ≤ t := Nat.not_le.mpr (hnew e he hid)
      simp [hid, hnle]
    · simp [hid]
  simp only [lwwUpsert]
  rw [if_pos hany, List.map_congr_left hfix, List.map_id']

/-- Last-writer-wins overwrites with the incoming value when every
cached entry for the element id has a write-time not newer than the
incoming one: afterwards, any cached entry for that id is the incoming
value stamped with the incoming write-time. -/
theorem lwwUpsert_matches (cache : TimedStore) (el : SketchElement) (t : ℕ)
    (hold : ∀ e ∈ cache, e.1.id = el.id → e.2 ≤ t) :
    ∀ e ∈ lwwUpsert cache el t, e.1.id = el.id → e = (el, t) := by
  intro e he hei
  by_cases hany : cache.any (fun a => a.1.id == el.id) = true
  · rw [lwwUpsert.eq_def, if_pos hany] at he
    rcases List.mem_map.mp he with ⟨a, ha, hfa⟩
    by_cases hid : a.1.id = el.id
    · have hb : (a.1.id == el.id) = true := by simpa using hid
      have hle : a.2 ≤ t := hold a ha hid
      rw [if_pos hb, if_pos hle] at hfa
      exact hfa.symm
    · have hb : (a.1.id == el.id) = false := by simpa using hid
      rw [hb] at hfa
      simp at hfa
      exact absurd (hfa ▸ hei) hid
  · rw [lwwUpsert.eq_def, if_neg hany] at he
    rcases List.mem_append.mp he with hc | hc
    · exact absurd (List.any_eq_true.mpr ⟨e, hc, by simpa using hei⟩) hany
    · simpa using hc

/-- Acknowledging the single pending local mutation after an incoming
change was buffered behind it removes the pending entry and replays the
buffered change through the last-writer-wins merge. -/
theorem acknowledge_after_buffer (st : SyncState) (c : RemoteChange)
    (p : PendingLocal) (hp : st.pending = [p]) (hpe : p.elemId = c.elemId)
    (hpt : c.writeTime < p.writeTime) (hb : st.buffered = []) :
    acknowledge (applyRemoteChange st c) p.seq
      = { cache := lwwUpsert st.cache c.value c.writeTime
          pending := []
          buffered := [] } := by
  have hnp : hasNewerPending st c = true := by
    simp [hasNewerPending, hp, hpe, hpt]
  have happ : applyRemoteChange st c = { st with buffered := st.buffered ++ [c] } := by
    simp [applyRemoteChange, hnp]
  rw [happ, hb]
  simp [acknowledge, removePending, flushBuffered, hp, applyRemoteChange,
    hasNewerPending]

/-- Claim C1: an incoming remote change for an element id with a
still-pending local mutation of newer logical write-time leaves the
cache untouched and is buffered; without such a pending mutation it is
merged immediately.  Once the pending local mutation is acknowledged the
buffered change is replayed by last-writer-wins, so the cache then
reflects the most recent authoritative value — the retained local value
when the local write-time is newer, the incoming value otherwise. -/
theorem remote_change_buffered_until_ack (st : SyncState) (c : RemoteChange) :
    (hasNewerPending st c = true →
        (applyRemoteChange st c).cache = st.cache
        ∧ (applyRemoteChange st c).buffered = st.buffered ++ [c]
        ∧ (applyRemoteChange st c).pending = st.pending)
    ∧ (hasNewerPending st c = false →
        (applyRemoteChange st c).cache = lwwUpsert st.cache c.value c.writeTime
        ∧ (applyRemoteChange st c).buffered = st.buffered)
    ∧ (∀ p : PendingLocal,
        st.pending = [p] → p.elemId = c.elemId → c.writeTime < p.writeTime →
        st.buffered = [] → c.value.id = c.elemId →
        (∃ e ∈ st.cache, e.1.id = c.elemId) →
        (∀ e ∈ st.cache, e.1.id = c.elemId → c.writeTime < e.2) →
        (acknowledge (applyRemoteChange st c) p.seq).cache = st.cache
        ∧ (acknowledge (applyRemoteChange st c) p.seq).pending = []
        ∧ (acknowledge (applyRemoteChange st c) p.seq).buffered = [])
    ∧ (∀ p : PendingLocal,
        st.pending = [p] → p.elemId = c.elemId → c.writeTime < p.writeTime →
        st.buffered = [] → c.value.id = c.elemId →
        (∀ e ∈ st.cache, e.1.id = c.elemId → e.2 ≤ c.writeTime) →
        ∀ e ∈ (acknowledge (applyRemoteChange st c) p.seq).cache,
          e.1.id = c.elemId → e = (c.value, c.writeTime)) := by
  refine ⟨?_, ?_, ?_, ?_⟩
  · intro h
    have happ : applyRemoteChange st c
        = { st with buffered := st.buffered ++ [c] } := by
      simp [applyRemoteChange, h]
    rw [happ]
    exact ⟨rfl, rfl, rfl⟩
  · intro h
    simp [applyRemoteChange, h]
  · intro p hp hpe hpt hb hcid hmem hnew
    have hack := acknowledge_after_buffer st c p hp hpe hpt hb
    have hkeep : lwwUpsert st.cache c.value c.writeTime = st.cache := by
      apply lwwUpsert_keep
      · rw [hcid]; exact hmem
      · rw [hcid]; exact hnew
    rw [hack]
    exact ⟨hkeep, rfl, rfl⟩
  · intro p hp hpe hpt hb hcid hold
    have hack := acknowledge_after_buffer st c p hp hpe hpt hb
    intro e he hei
    rw [hack] at he
    have hold' : ∀ a ∈ st.cache, a.1.id = c.value.id → a.2 ≤ c.writeTime := by
      rw [hcid]; exact hold
    exact lwwUpsert_matches st.cache c.value c.writeTime hold' e he
      (by rw [hcid]; exact hei)

/-- Witness for C1 at the spec's conflict-resolution scenario: `e1` is
locally at `(10, 10)` with a pending Move of write-time 2; the incoming
remote Move to `(5, 5)` with write-time 1 leaves the cache unchanged,
and after acknowledgment the cache still holds the retained local value,
the most recent authoritative one. -/
theorem remote_change_buffered_until_ack_witness :
    hasNewerPending syncScenarioState syncScenarioChange = true
    ∧ (applyRemoteChange syncScenarioState syncScenarioChange).cache
        = syncScenarioState.cache
    ∧ (acknowledge (applyRemoteChange syncScenarioState syncScenarioChange)
        0).cache = syncScenarioState.cache := by
  have h := remote_change_buffered_until_ack syncScenarioState syncScenarioChange
  have h1 := h.1 (by decide)
  have h3 := h.2.2.1 syncScenarioPending rfl rfl (by decide) rfl rfl
    (by decide) (by decide)
  exact ⟨by decide, h1.1, h3.1⟩
